import Mathlib

/-!
# Verification of the toko-pintar transaction ledger engine

Shallow embedding of the point-of-sale back office's core handlers:

* `createTransaction` (CommitSale) — `src/unnamed/part_003`
* `createPayment` (RecordPayment) — `src/server/src/handlers/create_payment.ts`
* `getCustomerDebt` — `src/server/src/handlers/get_customer_debt.ts`

Modelling conventions:

* Money amounts (`price`, `unit_price`, `total_amount`, `discount_amount`,
  `tax_amount`, `final_amount`, payment `amount`) are `Int` values in currency
  minor units: the design mandates exact decimal arithmetic with two
  fractional digits, and the handlers only add, subtract, multiply and compare
  amounts, so integer minor units capture the arithmetic exactly.
  The `toString`/`parseFloat` round-trips on numeric columns are identities
  under this reading and are not modelled separately.
* Database tables are lists of rows; serial primary keys are modelled with
  explicit next-id counters in the state.  A `SELECT ... WHERE id = x` is
  `List.find?`, an `UPDATE ... WHERE id = x` is a `List.map` that rewrites the
  matching rows.
* `db.transaction` rollback semantics: the handlers return
  `Except Err (result × DBState)`; an `error` outcome means the thrown error
  propagated and the store was rolled back, so the caller observes the
  original state.  `runCreateTransaction` / `runCreatePayment` package this
  caller's view.
* Timestamps (`created_at`, `updated_at := new Date()`) carry no information
  used by any handler logic and are omitted.
* The unused query at lines 12–15 of `createTransaction` (a `SELECT` of the
  first product whose result is discarded) has no observable effect and is
  omitted.
-/

namespace TokoPintar

/-- `payment_method` enum of the drizzle schema: cash, qris, bank_transfer, debt. -/
inductive PaymentMethod where
  | cash
  | qris
  | bankTransfer
  | debt
deriving DecidableEq

/-- `payment_status` enum of the drizzle schema: paid, pending, partial. -/
inductive PaymentStatus where
  | paid
  | pending
  | partiallyPaid
deriving DecidableEq

/-- A row of `productsTable` (fields the ledger handlers read or write). -/
structure Product where
  id : Nat
  name : String
  price : Int
  stock_quantity : Int
  is_active : Bool
deriving DecidableEq

/-- A row of `transactionsTable`. -/
structure Transaction where
  id : Nat
  customer_id : Option Nat
  total_amount : Int
  discount_amount : Int
  tax_amount : Int
  final_amount : Int
  payment_method : PaymentMethod
  payment_status : PaymentStatus
  notes : Option String
deriving DecidableEq

/-- A row of `transactionItemsTable`. -/
structure TransactionItem where
  id : Nat
  transaction_id : Nat
  product_id : Nat
  quantity : Int
  unit_price : Int
  subtotal : Int
deriving DecidableEq

/-- A row of `paymentsTable`. -/
structure Payment where
  id : Nat
  transaction_id : Nat
  customer_id : Nat
  amount : Int
  payment_method : PaymentMethod
  notes : Option String
deriving DecidableEq

/-- The database state: the four tables plus serial-id counters. -/
structure DBState where
  products : List Product
  transactions : List Transaction
  transaction_items : List TransactionItem
  payments : List Payment
  next_transaction_id : Nat
  next_item_id : Nat
  next_payment_id : Nat
deriving DecidableEq

/-- One element of `CreateTransactionInput.items`. -/
structure TransactionItemInput where
  product_id : Nat
  quantity : Int
  unit_price : Int
deriving DecidableEq

/-- `CreateTransactionInput` of `schema.ts`. -/
structure CreateTransactionInput where
  customer_id : Option Nat
  items : List TransactionItemInput
  discount_amount : Int
  tax_amount : Int
  payment_method : PaymentMethod
  notes : Option String
deriving DecidableEq

/-- `CreatePaymentInput` of `schema.ts`. -/
structure CreatePaymentInput where
  transaction_id : Nat
  customer_id : Nat
  amount : Int
  payment_method : PaymentMethod
  notes : Option String
deriving DecidableEq

/-- The errors the two write handlers throw, with the data their messages carry. -/
inductive Err where
  | productNotFound (productId : Nat)
  | insufficientStock (name : String) (available requested : Int)
  | transactionNotFound
  | invalidState
deriving DecidableEq

/-- `SELECT * FROM products WHERE id = productId`, first row. -/
def findProduct (ps : List Product) (productId : Nat) : Option Product :=
  ps.find? (fun p => decide (p.id = productId))

/-- The `allProducts` gathering loop of `createTransaction` (lines 17–29):
one lookup per item in item order, failing on the first missing product. -/
def gatherProducts (ps : List Product) : List Nat → Except Err (List Product)
  | [] => .ok []
  | productId :: rest =>
    match findProduct ps productId with
    | none => .error (.productNotFound productId)
    | some p =>
      match gatherProducts ps rest with
      | .error e => .error e
      | .ok l => .ok (p :: l)

/-- The stock-availability loop of `createTransaction` (lines 31–41):
each item is checked individually against the snapshot in `allProducts`. -/
def checkStock (allProducts : List Product) :
    List TransactionItemInput → Except Err Unit
  | [] => .ok ()
  | item :: rest =>
    match allProducts.find? (fun p => decide (p.id = item.product_id)) with
    | none => .error (.productNotFound item.product_id)
    | some p =>
      if p.stock_quantity < item.quantity then
        .error (.insufficientStock p.name p.stock_quantity item.quantity)
      else
        checkStock allProducts rest

/-- `UPDATE products SET stock_quantity = newStock WHERE id = productId`. -/
def updateStock (ps : List Product) (productId : Nat) (newStock : Int) :
    List Product :=
  ps.map (fun q => if q.id = productId then { q with stock_quantity := newStock } else q)

/-- The stock-update loop of `createTransaction` (lines 82–96): for each item,
the new stock is computed from the snapshot in `allProducts` (not from the
current table), and items with no matching snapshot entry are skipped. -/
def applyStockUpdates (allProducts : List Product) :
    List TransactionItemInput → List Product → List Product
  | [], ps => ps
  | item :: rest, ps =>
    match allProducts.find? (fun p => decide (p.id = item.product_id)) with
    | none => applyStockUpdates allProducts rest ps
    | some p =>
        applyStockUpdates allProducts rest
          (updateStock ps item.product_id (p.stock_quantity - item.quantity))

/-- `totalAmount = input.items.reduce((sum, item) => sum + item.quantity * item.unit_price, 0)`. -/
def totalAmountOf (items : List TransactionItemInput) : Int :=
  items.foldl (fun s item => s + item.quantity * item.unit_price) 0

/-- The transaction-items insertion loop (lines 67–80), with serial ids. -/
def buildItems (txId : Nat) : Nat → List TransactionItemInput → List TransactionItem
  | _, [] => []
  | nid, item :: rest =>
      { id := nid, transaction_id := txId, product_id := item.product_id,
        quantity := item.quantity, unit_price := item.unit_price,
        subtotal := item.quantity * item.unit_price } :: buildItems txId (nid + 1) rest

/-- CommitSale: `createTransaction` of `src/unnamed/part_003`, run inside
`db.transaction` (an `error` result means the whole unit rolled back). -/
def createTransaction (input : CreateTransactionInput) (st : DBState) :
    Except Err (Transaction × DBState) :=
  match gatherProducts st.products (input.items.map (fun i => i.product_id)) with
  | .error e => .error e
  | .ok allProducts =>
    match checkStock allProducts input.items with
    | .error e => .error e
    | .ok _ =>
      let totalAmount := totalAmountOf input.items
      let finalAmount := totalAmount - input.discount_amount + input.tax_amount
      let paymentStatus :=
        if input.payment_method = PaymentMethod.debt then PaymentStatus.pending
        else PaymentStatus.paid
      let txRow : Transaction :=
        { id := st.next_transaction_id, customer_id := input.customer_id,
          total_amount := totalAmount, discount_amount := input.discount_amount,
          tax_amount := input.tax_amount, final_amount := finalAmount,
          payment_method := input.payment_method, payment_status := paymentStatus,
          notes := input.notes }
      let newItems := buildItems txRow.id st.next_item_id input.items
      let newProducts := applyStockUpdates allProducts input.items st.products
      .ok (txRow,
        { st with
          products := newProducts,
          transactions := st.transactions ++ [txRow],
          transaction_items := st.transaction_items ++ newItems,
          next_transaction_id := st.next_transaction_id + 1,
          next_item_id := st.next_item_id + input.items.length })

/-- The caller's view of CommitSale: on a thrown error the `db.transaction`
wrapper rolls back, so the observable state is the original one. -/
def runCreateTransaction (input : CreateTransactionInput) (st : DBState) :
    Option Transaction × DBState :=
  match createTransaction input st with
  | .ok (t, st') => (some t, st')
  | .error _ => (none, st)

/-- `SELECT * FROM transactions WHERE id = txId`, first row. -/
def lookupTransaction (txs : List Transaction) (txId : Nat) : Option Transaction :=
  txs.find? (fun t => decide (t.id = txId))

/-- `totalPaidAmount`: sum of `amount` over the payments of one transaction
(the `reduce` at lines 41–43 of `create_payment.ts`). -/
def paidFor (txId : Nat) (payments : List Payment) : Int :=
  (payments.filter (fun p => decide (p.transaction_id = txId))).foldl
    (fun s p => s + p.amount) 0

/-- RecordPayment: `createPayment` of `create_payment.ts`.  Both error exits
happen before the insert, so an `error` result leaves the store untouched. -/
def createPayment (input : CreatePaymentInput) (st : DBState) :
    Except Err (Payment × DBState) :=
  match lookupTransaction st.transactions input.transaction_id with
  | none => .error .transactionNotFound
  | some t =>
    if t.payment_method ≠ PaymentMethod.debt then .error .invalidState
    else
      let payment : Payment :=
        { id := st.next_payment_id, transaction_id := input.transaction_id,
          customer_id := input.customer_id, amount := input.amount,
          payment_method := input.payment_method, notes := input.notes }
      let payments' := st.payments ++ [payment]
      let totalPaid := paidFor input.transaction_id payments'
      let newStatus :=
        if totalPaid ≥ t.final_amount then PaymentStatus.paid
        else if totalPaid > 0 then PaymentStatus.partiallyPaid
        else t.payment_status
      let transactions' :=
        if newStatus ≠ t.payment_status then
          st.transactions.map
            (fun u => if u.id = input.transaction_id
                      then { u with payment_status := newStatus } else u)
        else st.transactions
      .ok (payment,
        { st with
          payments := payments',
          transactions := transactions',
          next_payment_id := st.next_payment_id + 1 })

/-- The caller's view of RecordPayment: on error nothing was written. -/
def runCreatePayment (input : CreatePaymentInput) (st : DBState) : DBState :=
  match createPayment input st with
  | .ok (_, st') => st'
  | .error _ => st

/-- Apply a sequence of payment amounts to one transaction through
`createPayment` (method cash, no notes; neither influences status logic). -/
def applyPayments (txId c : Nat) : List Int → DBState → DBState
  | [], st => st
  | a :: rest, st =>
      applyPayments txId c rest
        (runCreatePayment
          { transaction_id := txId, customer_id := c, amount := a,
            payment_method := PaymentMethod.cash, notes := none } st)

/-- Sum of `amount` over one customer's payments (second aggregate of
`get_customer_debt.ts`). -/
def paidByCustomer (c : Nat) (payments : List Payment) : Int :=
  (payments.filter (fun p => decide (p.customer_id = c))).foldl
    (fun s p => s + p.amount) 0

/-- Sum of `final_amount` over one customer's pending/partial transactions
(first aggregate of `get_customer_debt.ts`). -/
def unpaidFor (c : Nat) (txs : List Transaction) : Int :=
  (txs.filter (fun t => decide (t.customer_id = some c ∧
      (t.payment_status = PaymentStatus.pending ∨
       t.payment_status = PaymentStatus.partiallyPaid)))).foldl
    (fun s t => s + t.final_amount) 0

/-- `getCustomerDebt` of `get_customer_debt.ts`: a pure read. -/
def getCustomerDebt (customerId : Nat) (st : DBState) : Int :=
  let unpaidAmount := unpaidFor customerId st.transactions
  let paidAmount := paidByCustomer customerId st.payments
  let debt := unpaidAmount - paidAmount
  max debt 0

/-- The design document's debt formula, written from its words:
`debt = max(0, Σ(final_amount of that customer's transactions with status in
(pending, partial)) − Σ(amount of that customer's payments))`. -/
def getCustomerDebtSpec (customerId : Nat) (st : DBState) : Int :=
  max 0
    (((st.transactions.filter (fun t => decide (t.customer_id = some customerId ∧
        (t.payment_status = PaymentStatus.pending ∨
         t.payment_status = PaymentStatus.partiallyPaid)))).map
        (fun t => t.final_amount)).sum
     - ((st.payments.filter (fun p => decide (p.customer_id = customerId))).map
        (fun p => p.amount)).sum)

/-- Total stock held across a product table. -/
def sumStock (ps : List Product) : Int :=
  (ps.map (fun p => p.stock_quantity)).sum

/-- Total quantity requested across a cart. -/
def sumQty (items : List TransactionItemInput) : Int :=
  (items.map (fun i => i.quantity)).sum

/-! ## Concrete stores and inputs used in witnesses and counterexamples -/

/-- A store with one product: id 1, stock 10, active. -/
def stDup : DBState :=
  { products := [{ id := 1, name := "Beras", price := 100,
                   stock_quantity := 10, is_active := true }],
    transactions := [], transaction_items := [], payments := [],
    next_transaction_id := 1, next_item_id := 1, next_payment_id := 1 }

/-- A cash cart that references product 1 twice (quantities 2 and 3). -/
def inpDup : CreateTransactionInput :=
  { customer_id := none,
    items := [{ product_id := 1, quantity := 2, unit_price := 100 },
              { product_id := 1, quantity := 3, unit_price := 100 }],
    discount_amount := 0, tax_amount := 0,
    payment_method := PaymentMethod.cash, notes := none }

/-- A store with two distinct products (stock 10 and 8). -/
def stTwo : DBState :=
  { products := [{ id := 1, name := "Beras", price := 100,
                   stock_quantity := 10, is_active := true },
                 { id := 2, name := "Gula", price := 50,
                   stock_quantity := 8, is_active := true }],
    transactions := [], transaction_items := [], payments := [],
    next_transaction_id := 1, next_item_id := 1, next_payment_id := 1 }

/-- A cash cart over the two distinct products of `stTwo`. -/
def inpTwo : CreateTransactionInput :=
  { customer_id := none,
    items := [{ product_id := 1, quantity := 2, unit_price := 100 },
              { product_id := 2, quantity := 3, unit_price := 50 }],
    discount_amount := 0, tax_amount := 0,
    payment_method := PaymentMethod.cash, notes := none }

/-- A cart whose discount (500) exceeds its total (100). -/
def inpOverDiscount : CreateTransactionInput :=
  { customer_id := none,
    items := [{ product_id := 1, quantity := 1, unit_price := 100 }],
    discount_amount := 500, tax_amount := 0,
    payment_method := PaymentMethod.cash, notes := none }

/-- A store with one product of stock 3. -/
def stLow : DBState :=
  { products := [{ id := 1, name := "Beras", price := 100,
                   stock_quantity := 3, is_active := true }],
    transactions := [], transaction_items := [], payments := [],
    next_transaction_id := 1, next_item_id := 1, next_payment_id := 1 }

/-- A cart requesting product 1 twice, 2 units each (cumulative 4). -/
def inpCumulative : CreateTransactionInput :=
  { customer_id := none,
    items := [{ product_id := 1, quantity := 2, unit_price := 100 },
              { product_id := 1, quantity := 2, unit_price := 100 }],
    discount_amount := 0, tax_amount := 0,
    payment_method := PaymentMethod.cash, notes := none }

/-- A cart referencing the absent product id 99. -/
def inpMissing : CreateTransactionInput :=
  { customer_id := none,
    items := [{ product_id := 99, quantity := 1, unit_price := 100 }],
    discount_amount := 0, tax_amount := 0,
    payment_method := PaymentMethod.cash, notes := none }

/-- A store whose only product is inactive (`is_active = false`, stock 5). -/
def stInactive : DBState :=
  { products := [{ id := 1, name := "Lama", price := 100,
                   stock_quantity := 5, is_active := false }],
    transactions := [], transaction_items := [], payments := [],
    next_transaction_id := 1, next_item_id := 1, next_payment_id := 1 }

/-- A cart buying one unit of the inactive product. -/
def inpInactive : CreateTransactionInput :=
  { customer_id := none,
    items := [{ product_id := 1, quantity := 1, unit_price := 100 }],
    discount_amount := 0, tax_amount := 0,
    payment_method := PaymentMethod.cash, notes := none }

/-- A debt transaction with `final_amount` 10000 and no customer. -/
def tDebt : Transaction :=
  { id := 1, customer_id := none, total_amount := 10000, discount_amount := 0,
    tax_amount := 0, final_amount := 10000,
    payment_method := PaymentMethod.debt,
    payment_status := PaymentStatus.pending, notes := none }

/-- A cash transaction, already paid. -/
def tCash : Transaction :=
  { id := 2, customer_id := some 5, total_amount := 3000, discount_amount := 0,
    tax_amount := 0, final_amount := 3000,
    payment_method := PaymentMethod.cash,
    payment_status := PaymentStatus.paid, notes := none }

/-- A store holding `tDebt` and `tCash` and an empty payment ledger. -/
def stPay : DBState :=
  { products := [], transactions := [tDebt, tCash], transaction_items := [],
    payments := [], next_transaction_id := 3, next_item_id := 1,
    next_payment_id := 1 }

/-! ## Helper lemmas on list folds, lookups and updates -/

theorem foldl_add_eq_sum {α : Type} (f : α → Int) :
    ∀ (l : List α) (s : Int),
      l.foldl (fun acc x => acc + f x) s = s + (l.map f).sum := by
  intro l
  induction l with
  | nil => intro s; simp
  | cons x xs ih =>
      intro s
      simp only [List.foldl_cons, List.map_cons, List.sum_cons, ih]
      ring

theorem paidFor_eq_sum (txId : Nat) (l : List Payment) :
    paidFor txId l
      = ((l.filter (fun p => decide (p.transaction_id = txId))).map
          (fun p => p.amount)).sum := by
  simp [paidFor, foldl_add_eq_sum]

theorem paidFor_append_one (txId : Nat) (l : List Payment) (p : Payment)
    (hp : p.transaction_id = txId) :
    paidFor txId (l ++ [p]) = paidFor txId l + p.amount := by
  simp [paidFor_eq_sum, List.filter_append, hp]

theorem paidByCustomer_eq_sum (c : Nat) (l : List Payment) :
    paidByCustomer c l
      = ((l.filter (fun p => decide (p.customer_id = c))).map
          (fun p => p.amount)).sum := by
  simp [paidByCustomer, foldl_add_eq_sum]

theorem paidByCustomer_append_one (c : Nat) (l : List Payment) (p : Payment)
    (hp : p.customer_id = c) :
    paidByCustomer c (l ++ [p]) = paidByCustomer c l + p.amount := by
  simp [paidByCustomer_eq_sum, List.filter_append, hp]

theorem findProduct_some_id {ps : List Product} {productId : Nat} {p : Product}
    (h : findProduct ps productId = some p) : p.id = productId := by
  have := List.find?_some h
  simpa using this

theorem findProduct_some_mem {ps : List Product} {productId : Nat} {p : Product}
    (h : findProduct ps productId = some p) : p ∈ ps :=
  List.mem_of_find?_eq_some h


theorem gatherProducts_ok_lookup {ps : List Product} :
    ∀ {pids : List Nat} {l : List Product},
      gatherProducts ps pids = .ok l →
      ∀ pid ∈ pids, ∃ p, findProduct ps pid = some p := by
  intro pids
  induction pids with
  | nil => intro l _ pid hpid; simp at hpid
  | cons hd t ih =>
      intro l hok pid hpid
      simp only [gatherProducts] at hok
      cases hf : findProduct ps hd <;> rw [hf] at hok
      · simp at hok
      case some p =>
        cases hg : gatherProducts ps t <;> rw [hg] at hok
        · simp at hok
        case ok l' =>
          rcases List.mem_cons.mp hpid with rfl | hmem
          · exact ⟨p, hf⟩
          · exact ih hg pid hmem

theorem gatherProducts_find {ps : List Product} :
    ∀ {pids : List Nat} {l : List Product},
      gatherProducts ps pids = .ok l →
      ∀ pid ∈ pids,
        l.find? (fun q => decide (q.id = pid)) = findProduct ps pid := by
  intro pids
  induction pids with
  | nil => intro l _ pid hpid; simp at hpid
  | cons hd t ih =>
      intro l hok pid hpid
      simp only [gatherProducts] at hok
      cases hf : findProduct ps hd <;> rw [hf] at hok
      · simp at hok
      case some p =>
        cases hg : gatherProducts ps t <;> rw [hg] at hok
        · simp at hok
        case ok l' =>
          have hl : l = p :: l' := by
            simpa using hok.symm
          subst hl
          have hpid_p : p.id = hd := findProduct_some_id hf
          by_cases hc : p.id = pid
          · have : pid = hd := by rw [← hc, hpid_p]
            subst this
            rw [List.find?_cons_of_pos _ (by simpa using hc), hf]
          · have hne : pid ≠ hd := fun h => hc (h ▸ hpid_p)
            have hmem : pid ∈ t := by
              rcases List.mem_cons.mp hpid with h | h
              · exact absurd h hne
              · exact h
            rw [List.find?_cons_of_neg _ (by simpa using hc)]
            exact ih hg pid hmem

theorem gatherProducts_ok_of_lookup {ps : List Product} :
    ∀ {pids : List Nat},
      (∀ pid ∈ pids, ∃ p, findProduct ps pid = some p) →
      ∃ l, gatherProducts ps pids = .ok l := by
  intro pids
  induction pids with
  | nil => intro _; exact ⟨[], rfl⟩
  | cons hd t ih =>
      intro h
      obtain ⟨p, hp⟩ := h hd (List.mem_cons_self hd t)
      obtain ⟨l', hl'⟩ := ih (fun pid hpid => h pid (List.mem_cons_of_mem hd hpid))
      exact ⟨p :: l', by simp only [gatherProducts, hp, hl']⟩

theorem checkStock_ok_spec {allP : List Product} :
    ∀ {items : List TransactionItemInput},
      checkStock allP items = .ok () →
      ∀ item ∈ items, ∀ p,
        allP.find? (fun q => decide (q.id = item.product_id)) = some p →
        ¬ p.stock_quantity < item.quantity := by
  intro items
  induction items with
  | nil => intro _ item hitem; simp at hitem
  | cons hd t ih =>
      intro hok item hitem p hp
      simp only [checkStock] at hok
      split at hok
      · simp at hok
      case h_2 p0 hf =>
        split at hok
        · simp at hok
        case isFalse hlt =>
          rcases List.mem_cons.mp hitem with rfl | hmem
          · have : p = p0 := by rw [hf] at hp; exact (Option.some_injective _ hp).symm
            rw [this]; exact hlt
          · exact ih hok item hmem p hp

theorem checkStock_ok_of {allP : List Product} :
    ∀ {items : List TransactionItemInput},
      (∀ item ∈ items, ∃ p,
        allP.find? (fun q => decide (q.id = item.product_id)) = some p ∧
        ¬ p.stock_quantity < item.quantity) →
      checkStock allP items = .ok () := by
  intro items
  induction items with
  | nil => intro _; rfl
  | cons hd t ih =>
      intro h
      obtain ⟨p, hp, hs⟩ := h hd (List.mem_cons_self hd t)
      have ht := ih (fun item hitem => h item (List.mem_cons_of_mem hd hitem))
      simp only [checkStock, hp, if_neg hs, ht]

theorem updateStock_preserves_id (q : Product) (pid : Nat) (v : Int) :
    (if q.id = pid then { q with stock_quantity := v } else q).id = q.id := by
  split <;> rfl

theorem updateStock_map_id (ps : List Product) (pid : Nat) (v : Int) :
    (updateStock ps pid v).map (fun q => q.id) = ps.map (fun q => q.id) := by
  unfold updateStock
  rw [List.map_map]
  exact List.map_congr_left (fun q _ => updateStock_preserves_id q pid v)

theorem updateStock_eq_of_not_mem (ps : List Product) (pid : Nat) (v : Int)
    (h : pid ∉ ps.map (fun q => q.id)) : updateStock ps pid v = ps := by
  induction ps with
  | nil => rfl
  | cons r rs ih =>
      simp only [List.map_cons, List.mem_cons] at h
      push_neg at h
      simp only [updateStock, List.map_cons] at *
      rw [if_neg (fun hc => h.1 hc.symm)]
      have := ih h.2
      simp only [updateStock] at this
      rw [this]

theorem sumStock_cons (p : Product) (ps : List Product) :
    sumStock (p :: ps) = p.stock_quantity + sumStock ps := by
  simp [sumStock]

theorem sumStock_updateStock (pid : Nat) (v : Int) :
    ∀ (ps : List Product),
      (ps.map (fun q => q.id)).Nodup →
      ∀ q₀ ∈ ps, q₀.id = pid →
      sumStock (updateStock ps pid v) = sumStock ps - q₀.stock_quantity + v := by
  intro ps
  induction ps with
  | nil => intro _ q₀ hq₀; simp at hq₀
  | cons r rs ih =>
      intro hnd q₀ hq₀ hid
      rw [List.map_cons, List.nodup_cons] at hnd
      have hcons : updateStock (r :: rs) pid v
          = (if r.id = pid then { r with stock_quantity := v } else r)
              :: updateStock rs pid v := rfl
      by_cases hr : r.id = pid
      · have hq₀r : q₀ = r := by
          rcases List.mem_cons.mp hq₀ with rfl | hmem
          · rfl
          · exact absurd (hid ▸ List.mem_map_of_mem (fun q : Product => q.id) hmem)
              (hr ▸ hnd.1)
        have hrs : updateStock rs pid v = rs :=
          updateStock_eq_of_not_mem rs pid v (hr ▸ hnd.1)
        have hv : ({ r with stock_quantity := v } : Product).stock_quantity = v := rfl
        rw [hcons, if_pos hr, hrs, sumStock_cons, sumStock_cons, hq₀r, hv]
        omega
      · have hmem : q₀ ∈ rs := by
          rcases List.mem_cons.mp hq₀ with rfl | hmem
          · exact absurd hid hr
          · exact hmem
        rw [hcons, if_neg hr, sumStock_cons, sumStock_cons,
          ih hnd.2 q₀ hmem hid]
        omega

theorem mem_updateStock {ps : List Product} {pid : Nat} {v : Int} {q : Product}
    (h : q ∈ updateStock ps pid v) :
    ∃ qq ∈ ps, q = if qq.id = pid then { qq with stock_quantity := v } else qq := by
  obtain ⟨qq, hqq, hq⟩ := List.mem_map.mp h
  exact ⟨qq, hqq, hq.symm⟩

theorem sumQty_cons (i : TransactionItemInput) (items : List TransactionItemInput) :
    sumQty (i :: items) = i.quantity + sumQty items := by
  simp [sumQty]

/-- Key conservation lemma: when the cart's product ids are pairwise distinct
and, for each item, the snapshot row found in `allP` agrees with the current
table rows of that id, the stock-update loop removes exactly the requested
quantities from the total stock. -/
theorem applyStockUpdates_sum (allP : List Product) :
    ∀ (items : List TransactionItemInput) (ps : List Product),
      (items.map (fun i => i.product_id)).Nodup →
      (ps.map (fun q => q.id)).Nodup →
      (∀ item ∈ items, ∃ p,
          allP.find? (fun q => decide (q.id = item.product_id)) = some p ∧
          (∃ q ∈ ps, q.id = item.product_id) ∧
          (∀ q ∈ ps, q.id = item.product_id →
            q.stock_quantity = p.stock_quantity)) →
      sumStock (applyStockUpdates allP items ps) = sumStock ps - sumQty items := by
  intro items
  induction items with
  | nil => intro ps _ _ _; simp [applyStockUpdates, sumQty]
  | cons i rest ih =>
      intro ps hndI hndP h
      rw [List.map_cons, List.nodup_cons] at hndI
      obtain ⟨p, hp, ⟨q₀, hq₀mem, hq₀id⟩, hsnap⟩ := h i (List.mem_cons_self i rest)
      have happly : applyStockUpdates allP (i :: rest) ps
          = applyStockUpdates allP rest
              (updateStock ps i.product_id (p.stock_quantity - i.quantity)) := by
        simp only [applyStockUpdates, hp]
      rw [happly]
      set v := p.stock_quantity - i.quantity with hv
      set ps' := updateStock ps i.product_id v with hps'
      have hndP' : (ps'.map (fun q => q.id)).Nodup := by
        rw [hps', updateStock_map_id]; exact hndP
      have hcond : ∀ item ∈ rest, ∃ p',
          allP.find? (fun q => decide (q.id = item.product_id)) = some p' ∧
          (∃ q ∈ ps', q.id = item.product_id) ∧
          (∀ q ∈ ps', q.id = item.product_id →
            q.stock_quantity = p'.stock_quantity) := by
        intro item hitem
        obtain ⟨p', hp', ⟨q', hq'mem, hq'id⟩, hsnap'⟩ :=
          h item (List.mem_cons_of_mem i hitem)
        have hneq : item.product_id ≠ i.product_id := by
          intro hc
          exact hndI.1 (hc ▸ List.mem_map_of_mem
            (fun j : TransactionItemInput => j.product_id) hitem)
        refine ⟨p', hp', ⟨q', ?_, hq'id⟩, ?_⟩
        · have : (if q'.id = i.product_id then
              { q' with stock_quantity := v } else q') ∈ ps' :=
            List.mem_map_of_mem _ hq'mem
          rwa [if_neg (fun hc => hneq (hq'id ▸ hc))] at this
        · intro q hq hqid
          obtain ⟨qq, hqqmem, hqq⟩ := mem_updateStock hq
          by_cases hc : qq.id = i.product_id
          · rw [hqq, if_pos hc] at hqid ⊢
            have hqid' : qq.id = item.product_id := hqid
            exact absurd (hqid' ▸ hc) hneq
          · rw [hqq, if_neg hc] at hqid ⊢
            exact hsnap' qq hqqmem hqid
      have hstep : sumStock ps' = sumStock ps - i.quantity := by
        rw [hps', sumStock_updateStock i.product_id v ps hndP q₀ hq₀mem hq₀id,
          hsnap q₀ hq₀mem hq₀id, hv]
        omega
      rw [ih ps' hndI.2 hndP' hcond, hstep, sumQty_cons]
      omega

/-- Every stock value the update loop writes is a snapshot stock minus the
requested quantity of an item that passed its own stock check, so stock
non-negativity is preserved — with or without repeated product ids. -/
theorem applyStockUpdates_nonneg (allP : List Product) :
    ∀ (items : List TransactionItemInput) (ps : List Product),
      (∀ q ∈ ps, 0 ≤ q.stock_quantity) →
      (∀ item ∈ items, ∀ p,
          allP.find? (fun q => decide (q.id = item.product_id)) = some p →
          ¬ p.stock_quantity < item.quantity) →
      ∀ q ∈ applyStockUpdates allP items ps, 0 ≤ q.stock_quantity := by
  intro items
  induction items with
  | nil => intro ps h0 _ q hq; exact h0 q hq
  | cons i rest ih =>
      intro ps h0 hstk q hq
      cases hf : allP.find? (fun q => decide (q.id = i.product_id)) with
      | none =>
          rw [show applyStockUpdates allP (i :: rest) ps
              = applyStockUpdates allP rest ps by
            simp only [applyStockUpdates, hf]] at hq
          exact ih ps h0
            (fun item hitem => hstk item (List.mem_cons_of_mem i hitem)) q hq
      | some p =>
          rw [show applyStockUpdates allP (i :: rest) ps
              = applyStockUpdates allP rest
                  (updateStock ps i.product_id (p.stock_quantity - i.quantity)) by
            simp only [applyStockUpdates, hf]] at hq
          have h0' : ∀ q ∈ updateStock ps i.product_id
              (p.stock_quantity - i.quantity), 0 ≤ q.stock_quantity := by
            intro q' hq'
            obtain ⟨qq, hqqmem, hqq⟩ := mem_updateStock hq'
            by_cases hc : qq.id = i.product_id
            · rw [hqq, if_pos hc]
              have := hstk i (List.mem_cons_self i rest) p hf
              simp only
              omega
            · rw [hqq, if_neg hc]
              exact h0 qq hqqmem
          exact ih _ h0'
            (fun item hitem => hstk item (List.mem_cons_of_mem i hitem)) q hq

theorem lookupTransaction_some_id {txs : List Transaction} {txId : Nat}
    {t : Transaction} (h : lookupTransaction txs txId = some t) : t.id = txId := by
  have := List.find?_some h
  simpa using this

theorem lookupTransaction_map_update (txs : List Transaction) (txId : Nat)
    (s : PaymentStatus) {t : Transaction}
    (ht : lookupTransaction txs txId = some t) :
    lookupTransaction
      (txs.map (fun u => if u.id = txId then { u with payment_status := s } else u))
      txId
      = some { t with payment_status := s } := by
  unfold lookupTransaction at *
  rw [List.find?_map]
  have hcomp : ((fun u : Transaction => decide (u.id = txId)) ∘
      (fun u : Transaction =>
        if u.id = txId then { u with payment_status := s } else u))
      = fun u : Transaction => decide (u.id = txId) := by
    funext u
    by_cases h : u.id = txId <;> simp [h]
  rw [hcomp, ht]
  have htid : t.id = txId := by simpa using List.find?_some ht
  simp [if_pos htid]

/-- One successful `createPayment` call on a debt transaction: the exact
payment row appended, and the transaction's stored status afterwards. -/
theorem createPayment_debt_ok
    (st : DBState) (inp : CreatePaymentInput) (t : Transaction)
    (ht : lookupTransaction st.transactions inp.transaction_id = some t)
    (hdebt : t.payment_method = PaymentMethod.debt) :
    ∃ st',
      createPayment inp st = .ok
        ({ id := st.next_payment_id, transaction_id := inp.transaction_id,
           customer_id := inp.customer_id, amount := inp.amount,
           payment_method := inp.payment_method, notes := inp.notes }, st') ∧
      st'.payments = st.payments ++
        [{ id := st.next_payment_id, transaction_id := inp.transaction_id,
           customer_id := inp.customer_id, amount := inp.amount,
           payment_method := inp.payment_method, notes := inp.notes }] ∧
      lookupTransaction st'.transactions inp.transaction_id
        = some { t with payment_status :=
            if (paidFor inp.transaction_id st.payments + inp.amount ≥ t.final_amount)
            then PaymentStatus.paid
            else if (paidFor inp.transaction_id st.payments + inp.amount > 0)
            then PaymentStatus.partiallyPaid
            else t.payment_status } := by
  have hne : ¬ (t.payment_method ≠ PaymentMethod.debt) := fun hc => hc hdebt
  have hpaid : paidFor inp.transaction_id
      (st.payments ++
        [{ id := st.next_payment_id, transaction_id := inp.transaction_id,
           customer_id := inp.customer_id, amount := inp.amount,
           payment_method := inp.payment_method, notes := inp.notes }])
      = paidFor inp.transaction_id st.payments + inp.amount :=
    paidFor_append_one _ _ _ rfl
  cases hcp : createPayment inp st with
  | error e =>
      exfalso
      simp only [createPayment, ht] at hcp
      rw [if_neg hne] at hcp
      exact absurd hcp (by simp)
  | ok r =>
      obtain ⟨pay, st'⟩ := r
      have hcp2 := hcp
      simp only [createPayment, ht] at hcp2
      rw [if_neg hne] at hcp2
      rw [Except.ok.injEq, Prod.mk.injEq] at hcp2
      obtain ⟨hpay, hst⟩ := hcp2
      subst hpay
      subst hst
      refine ⟨_, rfl, rfl, ?_⟩
      simp only [hpaid]
      by_cases hch :
          (if (paidFor inp.transaction_id st.payments + inp.amount ≥ t.final_amount)
           then PaymentStatus.paid
           else if (paidFor inp.transaction_id st.payments + inp.amount > 0)
           then PaymentStatus.partiallyPaid
           else t.payment_status) ≠ t.payment_status
      · rw [if_pos hch]
        exact lookupTransaction_map_update st.transactions inp.transaction_id _ ht
      · rw [if_neg hch, ht]
        have hN := of_not_not hch
        rw [hN]

/-- `createPayment_debt_ok` with the input record spelled out componentwise. -/
theorem createPayment_debt_ok_mk
    (st : DBState) (txId c : Nat) (a : Int) (m : PaymentMethod)
    (nts : Option String) (t : Transaction)
    (ht : lookupTransaction st.transactions txId = some t)
    (hdebt : t.payment_method = PaymentMethod.debt) :
    ∃ st',
      createPayment ⟨txId, c, a, m, nts⟩ st = .ok
        ({ id := st.next_payment_id, transaction_id := txId,
           customer_id := c, amount := a,
           payment_method := m, notes := nts }, st') ∧
      st'.payments = st.payments ++
        [{ id := st.next_payment_id, transaction_id := txId,
           customer_id := c, amount := a,
           payment_method := m, notes := nts }] ∧
      lookupTransaction st'.transactions txId
        = some { t with payment_status :=
            if (paidFor txId st.payments + a ≥ t.final_amount)
            then PaymentStatus.paid
            else if (paidFor txId st.payments + a > 0)
            then PaymentStatus.partiallyPaid
            else t.payment_status } :=
  createPayment_debt_ok st ⟨txId, c, a, m, nts⟩ t ht hdebt

/-- Status after a nonempty run of positive payments on a debt transaction:
a pure function of the prior ledger total plus the amounts' sum. -/
theorem applyPayments_status (txId c : Nat) :
    ∀ (amounts : List Int) (st : DBState) (t : Transaction),
      lookupTransaction st.transactions txId = some t →
      t.payment_method = PaymentMethod.debt →
      amounts ≠ [] →
      (∀ a ∈ amounts, 0 < a) →
      0 ≤ paidFor txId st.payments →
      ∃ t', lookupTransaction (applyPayments txId c amounts st).transactions txId
              = some t' ∧
        t'.payment_status =
          (if (paidFor txId st.payments + amounts.sum ≥ t.final_amount)
           then PaymentStatus.paid else PaymentStatus.partiallyPaid) := by
  intro amounts
  induction amounts with
  | nil => intro st t _ _ hne _ _; exact absurd rfl hne
  | cons a rest ih =>
      intro st t ht hdebt _ hpos hprev
      obtain ⟨st', hcp, hpay, hlook⟩ :=
        createPayment_debt_ok_mk st txId c a PaymentMethod.cash none t ht hdebt
      have ha : 0 < a := hpos a (List.mem_cons_self a rest)
      have hrun : runCreatePayment
          ⟨txId, c, a, PaymentMethod.cash, none⟩ st = st' := by
        unfold runCreatePayment
        rw [hcp]
      have happ : applyPayments txId c (a :: rest) st
          = applyPayments txId c rest st' := by
        simp only [applyPayments, hrun]
      rw [happ]
      have hpaid' : paidFor txId st'.payments
          = paidFor txId st.payments + a := by
        rw [hpay]
        exact paidFor_append_one _ _ _ rfl
      cases rest with
      | nil =>
          refine ⟨_, hlook, ?_⟩
          show (if (paidFor txId st.payments + a ≥ t.final_amount)
              then PaymentStatus.paid
              else if (paidFor txId st.payments + a > 0)
              then PaymentStatus.partiallyPaid
              else t.payment_status) = _
          have hsum : ([a] : List Int).sum = a := by simp
          rw [hsum]
          by_cases hge : paidFor txId st.payments + a ≥ t.final_amount
          · rw [if_pos hge, if_pos hge]
          · rw [if_neg hge, if_neg hge, if_pos (by omega)]
      | cons b rest' =>
          obtain ⟨t', hl, hs⟩ := ih st'
            { t with payment_status :=
                if (paidFor txId st.payments + a ≥ t.final_amount)
                then PaymentStatus.paid
                else if (paidFor txId st.payments + a > 0)
                then PaymentStatus.partiallyPaid
                else t.payment_status }
            hlook hdebt (by simp)
            (fun x hx => hpos x (List.mem_cons_of_mem a hx))
            (by omega)
          refine ⟨t', hl, ?_⟩
          rw [hs]
          have hfin : ({ t with payment_status :=
              if (paidFor txId st.payments + a ≥ t.final_amount)
              then PaymentStatus.paid
              else if (paidFor txId st.payments + a > 0)
              then PaymentStatus.partiallyPaid
              else t.payment_status } : Transaction).final_amount
              = t.final_amount := rfl
          have harith : paidFor txId st'.payments + (b :: rest').sum
              = paidFor txId st.payments + (a :: b :: rest').sum := by
            rw [hpaid']
            simp only [List.sum_cons]
            ring
          rw [hfin, harith]

/-! ## Claim theorems -/

/-- Claim C5: `getCustomerDebt` is a pure read that returns
`max(0, Σ final_amount of the customer's pending/partial transactions −
Σ amount of all the customer's payments)`; the result is never negative,
and payments are netted in aggregate (the formula subtracts the customer's
whole payment ledger, with no per-transaction matching). -/
theorem getCustomerDebt_matches_spec_and_nonneg (c : Nat) (st : DBState) :
    getCustomerDebt c st = getCustomerDebtSpec c st ∧
    0 ≤ getCustomerDebt c st := by
  constructor
  · unfold getCustomerDebt getCustomerDebtSpec unpaidFor paidByCustomer
    rw [foldl_add_eq_sum, foldl_add_eq_sum]
    simp only [zero_add]
    exact max_comm _ _
  · unfold getCustomerDebt
    exact le_max_right _ 0

/-- Claim C8: `createPayment` fails with the not-found error when the
referenced transaction does not exist, and with the invalid-state error when
it exists but its `payment_method` is not `debt`; in both cases the caller
observes an unchanged store (no payment row, no transaction update). -/
theorem createPayment_preconditions (inp : CreatePaymentInput) (st : DBState) :
    (lookupTransaction st.transactions inp.transaction_id = none →
      createPayment inp st = .error Err.transactionNotFound ∧
      runCreatePayment inp st = st) ∧
    (∀ t, lookupTransaction st.transactions inp.transaction_id = some t →
      t.payment_method ≠ PaymentMethod.debt →
      createPayment inp st = .error Err.invalidState ∧
      runCreatePayment inp st = st) := by
  constructor
  · intro hn
    have h1 : createPayment inp st = .error Err.transactionNotFound := by
      simp only [createPayment, hn]
    refine ⟨h1, ?_⟩
    unfold runCreatePayment
    rw [h1]
  · intro t ht hm
    have h1 : createPayment inp st = .error Err.invalidState := by
      simp only [createPayment, ht]
      rw [if_pos hm]
    refine ⟨h1, ?_⟩
    unfold runCreatePayment
    rw [h1]

/-- Witness for C8: the absent transaction id 99 yields the not-found error,
and the cash transaction `tCash` yields the invalid-state error; the store is
unchanged both times. -/
theorem createPayment_preconditions_witness :
    (createPayment ⟨99, 5, 100, PaymentMethod.cash, none⟩ stPay
        = .error Err.transactionNotFound ∧
      runCreatePayment ⟨99, 5, 100, PaymentMethod.cash, none⟩ stPay = stPay) ∧
    (createPayment ⟨2, 5, 100, PaymentMethod.cash, none⟩ stPay
        = .error Err.invalidState ∧
      runCreatePayment ⟨2, 5, 100, PaymentMethod.cash, none⟩ stPay = stPay) :=
  ⟨(createPayment_preconditions ⟨99, 5, 100, PaymentMethod.cash, none⟩ stPay).1
      (by decide),
   (createPayment_preconditions ⟨2, 5, 100, PaymentMethod.cash, none⟩ stPay).2
      tCash (by decide) (by decide)⟩

/-- Claim C10: `createPayment` never compares the supplied `customer_id`
with the transaction's own `customer_id`: for any existing debt transaction,
any customer id `c` and positive amount, the call succeeds, the stored
payment is attributed to `c`, and `c`'s payment aggregate (the quantity
`getCustomerDebt` subtracts) grows by the amount. -/
theorem createPayment_no_customer_check
    (st : DBState) (txId c : Nat) (a : Int) (m : PaymentMethod)
    (nts : Option String) (t : Transaction)
    (ht : lookupTransaction st.transactions txId = some t)
    (hdebt : t.payment_method = PaymentMethod.debt)
    (ha : 0 < a) :
    ∃ pay st', createPayment ⟨txId, c, a, m, nts⟩ st = .ok (pay, st') ∧
      pay.customer_id = c ∧
      paidByCustomer c st'.payments = paidByCustomer c st.payments + a := by
  obtain ⟨st', hcp, hpayments, _⟩ :=
    createPayment_debt_ok_mk st txId c a m nts t ht hdebt
  refine ⟨_, st', hcp, rfl, ?_⟩
  rw [hpayments]
  exact paidByCustomer_append_one _ _ _ rfl

/-- Witness for C10: `tDebt` has `customer_id = none`, yet a payment by the
unrelated customer 7 succeeds and is credited to customer 7's aggregate. -/
theorem createPayment_no_customer_check_witness :
    tDebt.customer_id = none ∧
    ∃ pay st',
      createPayment ⟨1, 7, 2500, PaymentMethod.cash, none⟩ stPay
        = .ok (pay, st') ∧
      pay.customer_id = 7 ∧
      paidByCustomer 7 st'.payments = paidByCustomer 7 stPay.payments + 2500 :=
  ⟨rfl, createPayment_no_customer_check stPay 1 7 2500 PaymentMethod.cash none
    tDebt (by decide) rfl (by decide)⟩

/-- Claim C4: after applying a nonempty sequence of positive payments to a
debt transaction, the stored `payment_status` is `paid` when the ledger total
reaches `final_amount` and `partial` otherwise (the total being positive);
consequently any permutation of the same amounts yields the same final
status. -/
theorem payment_status_pure_function_of_ledger
    (st : DBState) (txId c c' : Nat) (t : Transaction)
    (amounts amounts' : List Int)
    (ht : lookupTransaction st.transactions txId = some t)
    (hdebt : t.payment_method = PaymentMethod.debt)
    (hne : amounts ≠ [])
    (hpos : ∀ a ∈ amounts, 0 < a)
    (hprev : 0 ≤ paidFor txId st.payments)
    (hperm : amounts.Perm amounts') :
    ((lookupTransaction (applyPayments txId c amounts st).transactions txId).map
        (fun u => u.payment_status)
      = some (if (paidFor txId st.payments + amounts.sum ≥ t.final_amount)
              then PaymentStatus.paid else PaymentStatus.partiallyPaid)) ∧
    ((lookupTransaction
        (applyPayments txId c' amounts' st).transactions txId).map
        (fun u => u.payment_status)
      = (lookupTransaction
          (applyPayments txId c amounts st).transactions txId).map
          (fun u => u.payment_status)) := by
  obtain ⟨t1, hl1, hs1⟩ :=
    applyPayments_status txId c amounts st t ht hdebt hne hpos hprev
  have hne' : amounts' ≠ [] := by
    intro h
    rw [h] at hperm
    exact hne hperm.eq_nil
  obtain ⟨t2, hl2, hs2⟩ :=
    applyPayments_status txId c' amounts' st t ht hdebt hne'
      (fun a hx => hpos a (hperm.mem_iff.mpr hx)) hprev
  constructor
  · rw [hl1]
    simp only [Option.map_some']
    rw [hs1]
  · rw [hl1, hl2]
    simp only [Option.map_some']
    rw [hs1, hs2, hperm.sum_eq]

/-- Witness for C4: paying 40.00 then 60.00 (or 60.00 then 40.00, even
attributed to different customers) on the 100.00 debt transaction ends in
the same status, the one derived from the summed ledger. -/
theorem payment_status_pure_function_of_ledger_witness :
    ((lookupTransaction
        (applyPayments 1 7 [4000, 6000] stPay).transactions 1).map
        (fun u => u.payment_status)
      = some (if (paidFor 1 stPay.payments + ([4000, 6000] : List Int).sum
                  ≥ tDebt.final_amount)
              then PaymentStatus.paid else PaymentStatus.partiallyPaid)) ∧
    ((lookupTransaction
        (applyPayments 1 8 [6000, 4000] stPay).transactions 1).map
        (fun u => u.payment_status)
      = (lookupTransaction
          (applyPayments 1 7 [4000, 6000] stPay).transactions 1).map
          (fun u => u.payment_status)) :=
  payment_status_pure_function_of_ledger stPay 1 7 8 tDebt
    [4000, 6000] [6000, 4000] (by decide) rfl (by decide) (by decide)
    (by decide) (List.Perm.swap 6000 4000 [])

/-- Claim C3: any validation failure — a missing product or an item whose
(first matching) product row has less stock than requested — makes
`createTransaction` raise an error, and the `db.transaction` wrapper leaves
the caller-observable store unchanged: no transaction row, no item rows and
no stock change. -/
theorem createTransaction_atomic_on_validation_failure
    (input : CreateTransactionInput) (st : DBState)
    (hbad : ∃ item ∈ input.items,
      findProduct st.products item.product_id = none ∨
      ∃ p, findProduct st.products item.product_id = some p ∧
        p.stock_quantity < item.quantity) :
    runCreateTransaction input st = (none, st) := by
  obtain ⟨item, hitem, hcase⟩ := hbad
  unfold runCreateTransaction
  cases hct : createTransaction input st with
  | error e => rfl
  | ok r =>
      exfalso
      obtain ⟨t0, st0⟩ := r
      unfold createTransaction at hct
      split at hct
      · exact absurd hct (by simp)
      rename_i allP heq
      split at hct
      · exact absurd hct (by simp)
      rename_i u hchk
      have hchk' : checkStock allP input.items = .ok () := hchk
      have hmemmap : item.product_id
          ∈ input.items.map (fun i => i.product_id) :=
        List.mem_map_of_mem _ hitem
      rcases hcase with hnone | ⟨p, hp, hlt⟩
      · obtain ⟨p, hp⟩ := gatherProducts_ok_lookup heq item.product_id hmemmap
        rw [hnone] at hp
        exact absurd hp (by simp)
      · have hfind := gatherProducts_find heq item.product_id hmemmap
        rw [hp] at hfind
        exact checkStock_ok_spec hchk' item hitem p hfind hlt

/-- Witness for C3: a cart referencing the absent product 99 aborts and the
store `stDup` is returned unchanged. -/
theorem createTransaction_atomic_on_validation_failure_witness :
    runCreateTransaction inpMissing stDup = (none, stDup) :=
  createTransaction_atomic_on_validation_failure inpMissing stDup
    ⟨⟨99, 1, 100⟩, by decide, Or.inl (by decide)⟩

/-- If every item resolves to a product with enough stock for that single
item, `createTransaction` succeeds — no other property of the products is
consulted. -/
theorem createTransaction_ok_of_valid
    (input : CreateTransactionInput) (st : DBState)
    (hval : ∀ item ∈ input.items, ∃ p,
        findProduct st.products item.product_id = some p ∧
        ¬ p.stock_quantity < item.quantity) :
    ∃ r, createTransaction input st = .ok r := by
  have hlk : ∀ pid ∈ input.items.map (fun i => i.product_id),
      ∃ p, findProduct st.products pid = some p := by
    intro pid hpid
    obtain ⟨item, hitem, rfl⟩ := List.mem_map.mp hpid
    obtain ⟨p, hp, _⟩ := hval item hitem
    exact ⟨p, hp⟩
  obtain ⟨allP, hg⟩ := gatherProducts_ok_of_lookup hlk
  have hchk : checkStock allP input.items = .ok () := by
    apply checkStock_ok_of
    intro item hitem
    obtain ⟨p, hp, hs⟩ := hval item hitem
    have hfind := gatherProducts_find hg item.product_id
      (List.mem_map_of_mem _ hitem)
    rw [hp] at hfind
    exact ⟨p, hfind, hs⟩
  simp only [createTransaction, hg, hchk]
  exact ⟨_, rfl⟩

/-- Claim C6 (amended): `createTransaction` performs no `is_active` check:
a cart whose items all pass the existence and per-item stock validations
commits even when a referenced product is inactive.  (`is_active` gates
saleability only through catalog queries in the UI layer.) -/
theorem createTransaction_ignores_is_active
    (input : CreateTransactionInput) (st : DBState)
    (hval : ∀ item ∈ input.items, ∃ p,
        findProduct st.products item.product_id = some p ∧
        ¬ p.stock_quantity < item.quantity)
    (hinactive : ∃ item ∈ input.items, ∃ p,
        findProduct st.products item.product_id = some p ∧
        p.is_active = false) :
    ∃ r, createTransaction input st = .ok r :=
  createTransaction_ok_of_valid input st hval

/-- Counterexample to C6 as stated: the store's only product is inactive,
yet the sale commits. -/
theorem inactive_product_sale_commits :
    (findProduct stInactive.products 1).map (fun p => p.is_active)
      = some false ∧
    ∃ r, createTransaction inpInactive stInactive = .ok r :=
  ⟨rfl, ⟨_, rfl⟩⟩

/-- Witness for the amended C6: the valid one-item cart over the inactive
product commits. -/
theorem createTransaction_ignores_is_active_witness :
    ∃ r, createTransaction inpInactive stInactive = .ok r :=
  createTransaction_ignores_is_active inpInactive stInactive
    (by
      intro item hitem
      have hitem' : item = ⟨1, 1, 100⟩ := by
        simpa [inpInactive] using hitem
      rw [hitem']
      exact ⟨_, rfl, by decide⟩)
    ⟨⟨1, 1, 100⟩, by decide, ⟨_, rfl, rfl⟩⟩

/-- Counterexample to C1 as stated: a cart with two items for the same
product (quantities 2 and 3, stock 10) commits, but total stock drops by 3
— the last item's quantity — not by the 5 units sold, because each update
writes `snapshot − quantity` and the later write overwrites the earlier. -/
theorem conservation_fails_on_duplicate_items :
    (∃ r, createTransaction inpDup stDup = .ok r) ∧
    sumStock stDup.products
        - sumStock (runCreateTransaction inpDup stDup).2.products = 3 ∧
    sumQty inpDup.items = 5 :=
  ⟨⟨_, rfl⟩, by decide, by decide⟩

/-- Claim C1 (amended): for carts whose items reference pairwise-distinct
product ids (and a store with unique product ids, the primary-key
invariant), a successful `createTransaction` removes exactly the sum of the
requested quantities from total stock. -/
theorem createTransaction_stock_conservation
    (input : CreateTransactionInput) (st : DBState)
    (t : Transaction) (st' : DBState)
    (hitems : (input.items.map (fun i => i.product_id)).Nodup)
    (hprods : (st.products.map (fun q => q.id)).Nodup)
    (h : createTransaction input st = .ok (t, st')) :
    sumStock st.products - sumStock st'.products = sumQty input.items := by
  unfold createTransaction at h
  split at h
  · exact absurd h (by simp)
  rename_i allP heq
  split at h
  · exact absurd h (by simp)
  rename_i u hchk
  rw [Except.ok.injEq, Prod.mk.injEq] at h
  obtain ⟨ht0, hst0⟩ := h
  subst hst0
  show sumStock st.products
      - sumStock (applyStockUpdates allP input.items st.products)
      = sumQty input.items
  have hcond : ∀ item ∈ input.items, ∃ p,
      allP.find? (fun q => decide (q.id = item.product_id)) = some p ∧
      (∃ q ∈ st.products, q.id = item.product_id) ∧
      (∀ q ∈ st.products, q.id = item.product_id →
        q.stock_quantity = p.stock_quantity) := by
    intro item hitem
    have hmemmap : item.product_id
        ∈ input.items.map (fun i => i.product_id) :=
      List.mem_map_of_mem _ hitem
    obtain ⟨p, hp⟩ := gatherProducts_ok_lookup heq item.product_id hmemmap
    have hfind := gatherProducts_find heq item.product_id hmemmap
    rw [hp] at hfind
    refine ⟨p, hfind,
      ⟨p, findProduct_some_mem hp, findProduct_some_id hp⟩, ?_⟩
    intro q hq hqid
    have hqp : q = p :=
      List.inj_on_of_nodup_map hprods hq (findProduct_some_mem hp)
        (by rw [hqid, findProduct_some_id hp])
    rw [hqp]
  rw [applyStockUpdates_sum allP input.items st.products hitems hprods hcond]
  omega

/-- Witness for the amended C1: the two-distinct-product cart `inpTwo`
removes exactly 5 units (2 + 3) from the stock of `stTwo`. -/
theorem createTransaction_stock_conservation_witness :
    ∃ t st', createTransaction inpTwo stTwo = .ok (t, st') ∧
      sumStock stTwo.products - sumStock st'.products = sumQty inpTwo.items := by
  obtain ⟨⟨t, st'⟩, h⟩ : ∃ r, createTransaction inpTwo stTwo = .ok r := ⟨_, rfl⟩
  exact ⟨t, st', h,
    createTransaction_stock_conservation inpTwo stTwo t st'
      (by decide) (by decide) h⟩

/-- Claim C9: starting from a store where every stock is non-negative, any
`createTransaction` call — successful or failed, duplicate product ids
included — leaves every stock non-negative: each written value is a
validated `snapshot − quantity ≥ 0`, and failures roll back. -/
theorem stock_nonnegativity_invariant
    (input : CreateTransactionInput) (st : DBState)
    (h0 : ∀ p ∈ st.products, 0 ≤ p.stock_quantity) :
    ∀ q ∈ (runCreateTransaction input st).2.products, 0 ≤ q.stock_quantity := by
  unfold runCreateTransaction
  cases hct : createTransaction input st with
  | error e => intro q hq; exact h0 q hq
  | ok r =>
      obtain ⟨t0, st0⟩ := r
      intro q hq
      unfold createTransaction at hct
      split at hct
      · exact absurd hct (by simp)
      rename_i allP heq
      split at hct
      · exact absurd hct (by simp)
      rename_i u hchk
      rw [Except.ok.injEq, Prod.mk.injEq] at hct
      obtain ⟨_, hst0⟩ := hct
      subst hst0
      have hchk' : checkStock allP input.items = .ok () := hchk
      exact applyStockUpdates_nonneg allP input.items st.products h0
        (checkStock_ok_spec hchk') q hq

/-- Witness for C9: the duplicate-item cart on `stDup` (all stocks start
non-negative) leaves every stock non-negative. -/
theorem stock_nonnegativity_invariant_witness :
    (runCreateTransaction inpDup stDup).2.products.all
      (fun q => decide (0 ≤ q.stock_quantity)) = true :=
  List.all_eq_true.mpr (fun q hq =>
    decide_eq_true (stock_nonnegativity_invariant inpDup stDup (by decide) q hq))

/-- Claim C7: a committed transaction's `total_amount` is
`Σ quantity × unit_price` over the submitted items (client-supplied prices),
and `final_amount` is exactly `total − discount + tax`, with no floor at
zero. -/
theorem createTransaction_amounts
    (input : CreateTransactionInput) (st : DBState)
    (t : Transaction) (st' : DBState)
    (h : createTransaction input st = .ok (t, st')) :
    t.total_amount = totalAmountOf input.items ∧
    t.final_amount = totalAmountOf input.items
      - input.discount_amount + input.tax_amount := by
  unfold createTransaction at h
  split at h
  · exact absurd h (by simp)
  split at h
  · exact absurd h (by simp)
  rw [Except.ok.injEq, Prod.mk.injEq] at h
  obtain ⟨ht0, _⟩ := h
  subst ht0
  exact ⟨rfl, rfl⟩

/-- Witness for C7: a discount of 500 on a 100 total commits with
`final_amount = −400` — negative, neither rejected nor clamped. -/
theorem createTransaction_amounts_witness :
    ∃ t st', createTransaction inpOverDiscount stTwo = .ok (t, st') ∧
      t.total_amount = totalAmountOf inpOverDiscount.items ∧
      t.final_amount = totalAmountOf inpOverDiscount.items
        - inpOverDiscount.discount_amount + inpOverDiscount.tax_amount ∧
      t.final_amount < 0 := by
  obtain ⟨⟨t, st'⟩, h⟩ : ∃ r, createTransaction inpOverDiscount stTwo = .ok r :=
    ⟨_, rfl⟩
  obtain ⟨h1, h2⟩ := createTransaction_amounts inpOverDiscount stTwo t st' h
  refine ⟨t, st', h, h1, h2, ?_⟩
  rw [h2]
  decide

/-- Claim C2, evaluated at the failing input: with stock 3 and a cart
requesting 2 + 2 = 4 units of the same product, `createTransaction` commits
(each item is checked separately against the snapshot stock 3) and writes
stock 1, instead of failing with the insufficient-stock error for the
cumulative demand. -/
theorem cumulative_stock_not_validated :
    sumQty inpCumulative.items = 4 ∧
    (findProduct stLow.products 1).map (fun p => p.stock_quantity)
      = some 3 ∧
    (∃ r, createTransaction inpCumulative stLow = .ok r) ∧
    (findProduct (runCreateTransaction inpCumulative stLow).2.products 1).map
        (fun p => p.stock_quantity) = some 1 :=
  ⟨by decide, rfl, ⟨_, rfl⟩, by decide⟩

end TokoPintar
